import Mathlib

/-!
Verification development for the train-step compiler
(`torch/_dynamo/backends/train_step.py`) and the SPMD parallel-mode layer
(`torch/distributed/_spmd/parallel_mode.py`).

The Python sources are shallowly embedded: Python `dict`s become ordered
association lists with Python-dict lookup/insert/update semantics, tensors
become records of shape/dtype/device/fakeness/data, exceptions become
`Except`, and context managers become explicit save/run/restore functions.
External collaborators (the graph tracer, the functionalizer, the pytree
library, the distributed converter) are not under `src/`; where a claim
depends on them, they are modelled from the specification and marked so in
their doc comments.
-/

/-- Python exceptions observable in the embedded code paths. -/
inductive PyExc where
  | assertionError
  | indexError
  | keyError
  | runtimeError
  | notImplementedError
  | placementConversionFailure
  | userError (n : Nat)
deriving DecidableEq, Repr

/-- A tensor: shape, dtype code, device code, whether it is a
`FakeTensor` (shape-only placeholder), and its element data (empty for
fake tensors, which carry no storage). -/
structure Tensor where
  shape : List Nat
  dtype : Nat
  device : Nat
  isFake : Bool
  data : List Int
deriving DecidableEq, Repr

/-! ### Python `dict` semantics

Ordered association lists with insertion-order iteration, as in Python:
`dget?` is `d[k]`-lookup, `dinsert` is `d[k] = v` (overwrite in place,
append if new), `dupdate` is `d.update(e)`. -/

instance {ε α : Type} [DecidableEq ε] [DecidableEq α] : DecidableEq (Except ε α) := fun x y =>
  match x, y with
  | .ok a, .ok b =>
    if h : a = b then isTrue (by rw [h]) else isFalse (by intro he; cases he; exact h rfl)
  | .error a, .error b =>
    if h : a = b then isTrue (by rw [h]) else isFalse (by intro he; cases he; exact h rfl)
  | .ok _, .error _ => isFalse (by intro h; cases h)
  | .error _, .ok _ => isFalse (by intro h; cases h)

def dget? {K V : Type} [DecidableEq K] : List (K × V) → K → Option V
  | [], _ => none
  | (k, v) :: rest, k' => if k' = k then some v else dget? rest k'

def dinsert {K V : Type} [DecidableEq K] : List (K × V) → K → V → List (K × V)
  | [], k, v => [(k, v)]
  | (k0, v0) :: rest, k, v =>
    if k = k0 then (k0, v) :: rest else (k0, v0) :: dinsert rest k v

def dupdate {K V : Type} [DecidableEq K] (d e : List (K × V)) : List (K × V) :=
  e.foldl (fun acc kv => dinsert acc kv.1 kv.2) d

theorem dget?_dinsert_self {K V : Type} [DecidableEq K] (d : List (K × V)) (k : K) (v : V) :
    dget? (dinsert d k v) k = some v := by
  induction d with
  | nil => simp [dinsert, dget?]
  | cons hd rest ih =>
    obtain ⟨k0, v0⟩ := hd
    by_cases h : k = k0
    · subst h; simp [dinsert, dget?]
    · simp [dinsert, dget?, h, ih]

theorem dget?_dinsert_ne {K V : Type} [DecidableEq K] (d : List (K × V)) (k k' : K) (v : V)
    (h : k' ≠ k) : dget? (dinsert d k v) k' = dget? d k' := by
  induction d with
  | nil => simp [dinsert, dget?, h]
  | cons hd rest ih =>
    obtain ⟨k0, v0⟩ := hd
    by_cases h0 : k = k0
    · subst h0; simp [dinsert, dget?, h]
    · by_cases h1 : k' = k0 <;> simp [dinsert, dget?, h0, h1, ih]

theorem dget?_eq_none_of_not_mem_keys {K V : Type} [DecidableEq K] (d : List (K × V)) (k : K)
    (h : k ∉ d.map Prod.fst) : dget? d k = none := by
  induction d with
  | nil => rfl
  | cons hd rest ih =>
    obtain ⟨k0, v0⟩ := hd
    simp only [List.map_cons, List.mem_cons] at h
    push_neg at h
    simp [dget?, h.1, ih h.2]

theorem dget?_dupdate_of_not_mem {K V : Type} [DecidableEq K] (d e : List (K × V)) (k : K)
    (h : dget? e k = none) : dget? (dupdate d e) k = dget? d k := by
  induction e generalizing d with
  | nil => rfl
  | cons hd rest ih =>
    obtain ⟨k0, v0⟩ := hd
    simp only [dget?] at h
    by_cases h0 : k = k0
    · simp [h0] at h
    · simp only [h0, if_false] at h
      simpa [dupdate, List.foldl_cons] using
        (dget?_dinsert_ne d k0 k v0 h0).symm ▸ ih (dinsert d k0 v0) h

theorem dget?_dupdate_of_mem {K V : Type} [DecidableEq K] (d e : List (K × V)) (k : K) (v : V)
    (hget : dget? e k = some v) (hnd : (e.map Prod.fst).Nodup) :
    dget? (dupdate d e) k = some v := by
  induction e generalizing d with
  | nil => simp [dget?] at hget
  | cons hd rest ih =>
    obtain ⟨k0, v0⟩ := hd
    simp only [List.map_cons, List.nodup_cons] at hnd
    simp only [dget?] at hget
    by_cases h0 : k = k0
    · simp only [h0, if_true, Option.some.injEq] at hget
      subst h0
      have hnone : dget? rest k = none := dget?_eq_none_of_not_mem_keys rest k hnd.1
      calc dget? (dupdate (dinsert d k v0) rest) k
          = dget? (dinsert d k v0) k := dget?_dupdate_of_not_mem _ _ _ hnone
        _ = some v0 := dget?_dinsert_self d k v0
        _ = some v := by rw [hget]
    · simp only [h0, if_false] at hget
      simpa [dupdate, List.foldl_cons] using ih (dinsert d k0 v0) hget hnd.2

/-! ### `_rematerialize_optimizer` (train_step.py lines 18-43)

Parameter identities (Python object ids used as `opt.state` keys) are
`Nat`; a per-parameter state record is a name-keyed dict of tensors.
The body of the `with` block is modelled as a function that may read and
mutate the two pieces of optimizer state the scope touches — the state
dict and the first parameter group's `"params"` list — and reports
whether it raised.  `copy(opt.state)` is a shallow copy, so saving the
original state is saving the association-list value. -/

abbrev StateRec := List (String × Tensor)
abbrev OptState := List (Nat × StateRec)

/-- One optimizer parameter group; only the `"params"` entry is touched by
the embedded code. -/
structure ParamGroup where
  params : List Nat
deriving DecidableEq, Repr

/-- The optimizer: its per-parameter state dict and its parameter groups. -/
structure Optimizer where
  state : OptState
  param_groups : List ParamGroup
deriving DecidableEq, Repr

/-- The `for n in named_states: opt.state[params[n]] = named_states[n]`
loop.  A missing key in `params` is a `KeyError`; the error value carries
the partially merged state (Python has already performed the earlier
insertions when it raises). -/
def mergeNamedStates (st : OptState) (params : List (String × Nat)) :
    List (String × StateRec) → Except OptState OptState
  | [] => .ok st
  | (n, s) :: rest =>
    match dget? params n with
    | some p => mergeNamedStates (dinsert st p s) params rest
    | none => .error st

/-- `_rematerialize_optimizer`: save `opt.state` (shallow copy) and
`param_groups[0]["params"]`, merge `named_states` into `opt.state` keyed
by the new parameter objects, replace the group's params with
`params.values()`, run the body, and in a `finally` restore the saved
params list and `opt.state.update(orig_states)`.  Returns the optimizer
as observable after the scope and whether an exception propagates.
A `KeyError` during the merge or an `IndexError` on an empty
`param_groups` happens before the `try`, so no restoration runs. -/
def rematerialize_optimizer (opt : Optimizer) (named_states : List (String × StateRec))
    (params : List (String × Nat))
    (body : OptState → List Nat → OptState × List Nat × Bool) : Optimizer × Bool :=
  match mergeNamedStates opt.state params named_states with
  | .error st1 => ({ opt with state := st1 }, true)
  | .ok st1 =>
    match opt.param_groups with
    | [] => ({ opt with state := st1 }, true)
    | g0 :: rest =>
      let r := body st1 (params.map Prod.snd)
      ({ state := dupdate r.1 opt.state,
         param_groups := ParamGroup.mk g0.params :: rest }, r.2.2)

/-- C1 (amended): for every optimizer and body, if the scope is entered
successfully (the named-states merge finds all its keys and a first
parameter group exists) then on any exit — normal or raising — the first
parameter group's parameter list (indeed the whole group list) is
restored, and every state entry present before entry is present
afterwards with its original value: no entry is lost.  Bit-identity of
the state map does not hold in general (see the counterexample): entries
added under the keys of the rebound parameters survive the scope. -/
theorem rematerialize_optimizer_restores (opt : Optimizer)
    (named_states : List (String × StateRec)) (params : List (String × Nat))
    (body : OptState → List Nat → OptState × List Nat × Bool) (st1 : OptState)
    (hmerge : mergeNamedStates opt.state params named_states = .ok st1)
    (hgroups : opt.param_groups ≠ [])
    (hnodup : (opt.state.map Prod.fst).Nodup) :
    (rematerialize_optimizer opt named_states params body).1.param_groups =
      opt.param_groups ∧
    ∀ k v, dget? opt.state k = some v →
      dget? (rematerialize_optimizer opt named_states params body).1.state k = some v := by
  unfold rematerialize_optimizer
  rw [hmerge]
  cases hpg : opt.param_groups with
  | nil => exact absurd hpg hgroups
  | cons g0 rest =>
    refine ⟨by cases g0; rfl, ?_⟩
    intro k v hv
    exact dget?_dupdate_of_mem _ _ _ _ hv hnodup

/-- Concrete optimizer for the C1 witness: one populated state entry under
parameter id 5, one parameter group. -/
def optC1 : Optimizer :=
  Optimizer.mk [(5, [("m", Tensor.mk [2] 0 0 false [1, 2])])] [ParamGroup.mk [5]]

/-- Concrete named-states mapping for the C1 witness. -/
def nsC1 : List (String × StateRec) := [("w", [("m", Tensor.mk [2] 0 1 true [])])]

/-- Concrete rebound-parameters mapping for the C1 witness. -/
def paramsC1 : List (String × Nat) := [("w", 7)]

/-- Concrete body for the C1 witness: it raises. -/
def bodyC1 : OptState → List Nat → OptState × List Nat × Bool := fun s p => (s, p, true)

/-- Witness for `rematerialize_optimizer_restores` at a concrete optimizer
with one existing state entry, a raising body, and a rebound parameter. -/
theorem rematerialize_optimizer_restores_w :
    (mergeNamedStates optC1.state paramsC1 nsC1 =
      .ok [(5, [("m", Tensor.mk [2] 0 0 false [1, 2])]),
           (7, [("m", Tensor.mk [2] 0 1 true [])])]) ∧
    optC1.param_groups ≠ [] ∧
    ((optC1.state.map Prod.fst).Nodup) ∧
    ((rematerialize_optimizer optC1 nsC1 paramsC1 bodyC1).1.param_groups =
        optC1.param_groups ∧
      ∀ k v, dget? optC1.state k = some v →
        dget? (rematerialize_optimizer optC1 nsC1 paramsC1 bodyC1).1.state k = some v) :=
  ⟨by decide, by decide, by decide,
    rematerialize_optimizer_restores optC1 nsC1 paramsC1 bodyC1
      [(5, [("m", Tensor.mk [2] 0 0 false [1, 2])]),
       (7, [("m", Tensor.mk [2] 0 1 true [])])]
      (by decide) (by decide) (by decide)⟩

/-- C1 counterexample: the claim as stated is false — the state map is not
bit-identical across the scope.  With an empty initial state, a rebound
parameter keyed `7`, and a body that raises nothing and changes nothing,
exiting the scope leaves the entry inserted for the rebound parameter in
`opt.state` (the `finally` only merges the saved entries back; it deletes
nothing), so the state map differs from its value before entry. -/
theorem rematerialize_optimizer_bit_identity_cex :
    (rematerialize_optimizer (Optimizer.mk [] [ParamGroup.mk [5]])
        [("w", [("m", Tensor.mk [3] 0 1 true [])])] [("w", 7)]
        (fun s p => (s, p, false))).1.state ≠
      (Optimizer.mk [] [ParamGroup.mk [5]]).state := by
  decide

/-! ### `_compile_fn` (train_step.py lines 60-207)

The prologue checks (lines 62-68), the warm-up flag handling around the
warm-up call (lines 129-131) and the optimizer-state conversion loop
(lines 134-141) are embedded directly.  The external collaborators — the
warm-up execution of the dynamo module and the `make_fx`/`functionalize`
tracing of steps 2-3 — are abstracted as `Except`-valued outcomes supplied
as arguments: the embedding only sequences them the way the source does. -/

/-- `prod` of a shape: the number of elements of a tensor of that shape. -/
def shapeNumel (shape : List Nat) : Nat := shape.foldl (fun a b => a * b) 1

/-- `torch.zeros(shape, dtype=dtype, device=dev)`: a freshly allocated real
all-zero tensor. -/
def torch_zeros (shape : List Nat) (dtype dev : Nat) : Tensor :=
  Tensor.mk shape dtype dev false (List.replicate (shapeNumel shape) 0)

/-- `t.zero_()`: overwrite every element with zero, in place. -/
def tensor_zero_ (t : Tensor) : Tensor :=
  { t with data := List.replicate t.data.length 0 }

/-- The conversion loop of lines 134-141: for every entry of `opt.state`
and every leaf of its state record, if the leaf is a `FakeTensor` replace
it by `torch.zeros(state.shape, dtype=state.dtype, device=dev)` — note
`dev`, the device of `params_flat[0]`, not the leaf's own device — and
then `zero_()` the (possibly replaced) leaf in place. -/
def convert_states (dev : Nat) (st : OptState) : OptState :=
  st.map fun ps =>
    (ps.1, ps.2.map fun ns =>
      let s := ns.2
      let s1 := if s.isFake then torch_zeros s.shape s.dtype dev else s
      (ns.1, tensor_zero_ s1))

/-- The embedded `_compile_fn`.  Arguments:
`modParams` — the module's named parameters and buffers merged (line 81);
`fakeInputs` — the dynamo sample inputs (a `FakeTensor` carries a
`fake_mode`, modelled by `isFake`); `flag0` — the entry value of the
shared fake mode's `allow_non_fake_inputs`; `warmup` — outcome of the
warm-up `functional_call` (line 130): either the populated `opt.state` or
an exception; `traceRest` — outcome of steps 2-4 (lines 179-199).
Returns the compilation outcome (carrying the converted optimizer state)
and the final value of `allow_non_fake_inputs`.  Mirrors the source
order: the three `assert`s of lines 63-68; `params_flat[0].device`
(line 118, an `IndexError` on a parameterless module); flag set `True`
(line 129); warm-up (line 130, flag stays `True` if it raises); flag set
`False` (line 131); the conversion loop; the remaining tracing steps. -/
def compile_fn (modParams : List (String × Tensor)) (fakeInputs : List Tensor)
    (flag0 : Bool) (warmup : Except PyExc OptState) (traceRest : Except PyExc Unit) :
    Except PyExc OptState × Bool :=
  if modParams.any fun p => p.2.isFake then (.error .assertionError, flag0)
  else
    match fakeInputs with
    | [] => (.error .assertionError, flag0)
    | t0 :: _ =>
      if !t0.isFake then (.error .assertionError, flag0)
      else
        match modParams.map Prod.snd with
        | [] => (.error .indexError, flag0)
        | p0 :: _ =>
          let dev := p0.device
          match warmup with
          | .error e => (.error e, true)
          | .ok optState =>
            let st' := convert_states dev optState
            match traceRest with
            | .error e => (.error e, false)
            | .ok _ => (.ok st', false)

/-- C2 (amended): after the conversion loop, every leaf of the optimizer
state that was a placeholder (`FakeTensor`) has been replaced by an
all-zero real tensor whose shape and dtype match the placeholder and
whose device is `dev` — the device of the first flattened parameter —
which need not be the placeholder's own device. -/
theorem convert_states_fake_leaf (dev : Nat) (st : OptState) (i j p : Nat)
    (rec : StateRec) (n : String) (t : Tensor)
    (hi : st.get? i = some (p, rec)) (hj : rec.get? j = some (n, t))
    (hf : t.isFake = true) :
    ∃ rec' t', (convert_states dev st).get? i = some (p, rec') ∧
      rec'.get? j = some (n, t') ∧
      t'.isFake = false ∧ t'.shape = t.shape ∧ t'.dtype = t.dtype ∧
      t'.device = dev ∧ t'.data = List.replicate (shapeNumel t.shape) 0 := by
  refine ⟨rec.map fun ns =>
      (ns.1, tensor_zero_ (if ns.2.isFake then torch_zeros ns.2.shape ns.2.dtype dev else ns.2)),
    tensor_zero_ (torch_zeros t.shape t.dtype dev), ?_, ?_, ?_, ?_, ?_, ?_, ?_⟩
  · rw [convert_states, List.get?_map, hi]
    rfl
  · rw [List.get?_map, hj]
    simp [hf]
  · rfl
  · rfl
  · rfl
  · rfl
  · simp [tensor_zero_, torch_zeros]

/-- Witness for `convert_states_fake_leaf`: a fake state leaf of shape
`[2]` on device 0 with `dev = 3`. -/
theorem convert_states_fake_leaf_w :
    ([(4, [("exp_avg", Tensor.mk [2] 6 0 true [])])] : OptState).get? 0 =
        some (4, [("exp_avg", Tensor.mk [2] 6 0 true [])]) ∧
    ([("exp_avg", Tensor.mk [2] 6 0 true [])] : StateRec).get? 0 =
        some ("exp_avg", Tensor.mk [2] 6 0 true []) ∧
    (Tensor.mk [2] 6 0 true [] : Tensor).isFake = true ∧
    (∃ rec' t',
      (convert_states 3 [(4, [("exp_avg", Tensor.mk [2] 6 0 true [])])]).get? 0 =
          some (4, rec') ∧
      rec'.get? 0 = some ("exp_avg", t') ∧
      t'.isFake = false ∧ t'.shape = (Tensor.mk [2] 6 0 true [] : Tensor).shape ∧
      t'.dtype = (Tensor.mk [2] 6 0 true [] : Tensor).dtype ∧
      t'.device = 3 ∧
      t'.data = List.replicate (shapeNumel (Tensor.mk [2] 6 0 true [] : Tensor).shape) 0) :=
  ⟨by decide, by decide, by decide,
    convert_states_fake_leaf 3 [(4, [("exp_avg", Tensor.mk [2] 6 0 true [])])] 0 0 4
      [("exp_avg", Tensor.mk [2] 6 0 true [])] "exp_avg" (Tensor.mk [2] 6 0 true [])
      (by decide) (by decide) (by decide)⟩

/-- C2 counterexample: the claim as stated — that the replacement tensor's
device matches its placeholder's — is false.  A fake state leaf living on
device 0 (the source notes "some of the states are singleton cpu
tensors") is replaced by a zero tensor on `dev = 1`, the device of the
first parameter, not on the placeholder's device 0. -/
theorem convert_states_device_cex :
    convert_states 1 [(0, [("step", Tensor.mk [3] 0 0 true [])])] =
      [(0, [("step", Tensor.mk [3] 0 1 false [0, 0, 0])])] ∧
    (Tensor.mk [3] 0 1 false [0, 0, 0] : Tensor).device ≠
      (Tensor.mk [3] 0 0 true [] : Tensor).device := by
  constructor
  · decide
  · decide

/-- C3 (amended): the compiler aborts with a precondition (assertion)
failure before any tracing begins — independently of the warm-up and
tracing outcomes, and without touching the fake mode's flag — whenever
placeholder (fake) parameters or buffers are present where materialized
ones are expected, or no sample inputs are supplied, or the first input
carries no valid `FakeTensorMode`.  (The source's check is
`assert_no_fake_params_or_buffers`: it is fake parameters, not
materialized ones, that violate the precondition.) -/
theorem compile_fn_precondition_aborts (modParams : List (String × Tensor))
    (fakeInputs : List Tensor) (flag0 : Bool)
    (h : (modParams.any fun p => p.2.isFake) = true ∨ fakeInputs = [] ∨
      (∃ t ts, fakeInputs = t :: ts ∧ t.isFake = false)) :
    ∀ warmup traceRest,
      compile_fn modParams fakeInputs flag0 warmup traceRest =
        (.error .assertionError, flag0) := by
  intro warmup traceRest
  rcases h with h | h | ⟨t, ts, hts, hf⟩
  · simp [compile_fn, h]
  · subst h
    by_cases hp : (modParams.any fun p => p.2.isFake) = true <;> simp [compile_fn, hp]
  · subst hts
    by_cases hp : (modParams.any fun p => p.2.isFake) = true <;> simp [compile_fn, hp, hf]

/-- Witness for `compile_fn_precondition_aborts`: a module carrying a fake
parameter aborts regardless of the later stages' outcomes. -/
theorem compile_fn_precondition_aborts_w :
    ((([("p", Tensor.mk [2] 0 0 true [])] : List (String × Tensor)).any
        fun p => p.2.isFake) = true ∨
      ([Tensor.mk [1] 0 0 true []] : List Tensor) = [] ∨
      (∃ t ts, ([Tensor.mk [1] 0 0 true []] : List Tensor) = t :: ts ∧ t.isFake = false)) ∧
    ∀ warmup traceRest,
      compile_fn [("p", Tensor.mk [2] 0 0 true [])] [Tensor.mk [1] 0 0 true []]
          false warmup traceRest =
        (.error .assertionError, false) :=
  ⟨Or.inl (by decide),
    compile_fn_precondition_aborts [("p", Tensor.mk [2] 0 0 true [])]
      [Tensor.mk [1] 0 0 true []] false (Or.inl (by decide))⟩

/-- C3 counterexample: the claim as stated — that the compiler aborts
whenever *materialized* parameters are present where placeholders are
expected — is false.  A module whose only parameter is a materialized
(non-fake) tensor, together with a valid fake sample input, passes every
precondition check and the compilation completes normally; the check in
the source rejects fake parameters, not materialized ones. -/
theorem compile_fn_materialized_params_ok_cex :
    ((Tensor.mk [2] 0 0 false [1, 2] : Tensor).isFake = false) ∧
    compile_fn [("p", Tensor.mk [2] 0 0 false [1, 2])] [Tensor.mk [1] 0 0 true []]
        false (.ok []) (.ok ()) = (.ok [], false) := by
  constructor
  · decide
  · decide

/-- C10 (amended): on every normal return of `_compile_fn` the shared
fake mode's `allow_non_fake_inputs` flag is `False`: it is set just
before the warm-up call and reset immediately afterwards on the normal
path.  The entry value is not saved, so the flag is "unchanged" only when
it entered `False`; a `True` entry value is overwritten (see the
counterexample). -/
theorem compile_fn_flag_false_on_ok (modParams : List (String × Tensor))
    (fakeInputs : List Tensor) (flag0 : Bool) (warmup : Except PyExc OptState)
    (traceRest : Except PyExc Unit) (r : OptState) (fl : Bool)
    (h : compile_fn modParams fakeInputs flag0 warmup traceRest = (.ok r, fl)) :
    fl = false := by
  unfold compile_fn at h
  split at h
  · simp at h
  · split at h
    · simp at h
    · split at h
      · simp at h
      · split at h
        · simp at h
        · split at h
          · simp at h
          · split at h
            · simp at h
            · simp only [Prod.mk.injEq] at h
              exact h.2.symm

/-- Witness for `compile_fn_flag_false_on_ok`: a concrete successful
compilation returns with the flag `False`. -/
theorem compile_fn_flag_false_on_ok_w :
    (compile_fn [("q", Tensor.mk [4] 1 2 false [1, 2, 3, 4])] [Tensor.mk [4] 1 2 true []]
        false (.ok []) (.ok ()) = (.ok [], false)) ∧ (false : Bool) = false :=
  ⟨by decide,
    compile_fn_flag_false_on_ok [("q", Tensor.mk [4] 1 2 false [1, 2, 3, 4])]
      [Tensor.mk [4] 1 2 true []] false (.ok []) (.ok ()) [] false (by decide)⟩

/-- C10 counterexample: the claim's conclusion that successful compilation
leaves the caller-supplied mode's flag unchanged is false.  Entering with
`allow_non_fake_inputs = True`, the compilation succeeds and returns with
the flag forced to `False`, which differs from its entry value. -/
theorem compile_fn_flag_changed_cex :
    compile_fn [("r", Tensor.mk [1] 0 0 false [5])] [Tensor.mk [1] 0 0 true []]
        true (.ok []) (.ok ()) = (.ok [], false) ∧ (false : Bool) ≠ true := by
  constructor
  · decide
  · decide

/-! ### Output-shape check of `functional_call` / `functional_call_2`
(train_step.py lines 105-109 and 173-177)

The traced body's return value is a Python object; the wrappers check
`isinstance(out, (tuple, list))` — a test on the *top-level* type only —
and raise `RuntimeError` otherwise. -/

/-- A Python value returned by the training-step body: a bare tensor, a
tuple, a list, or some other non-sequence object. -/
inductive PyOut where
  | tensor (t : Tensor)
  | tup (xs : List PyOut)
  | lst (xs : List PyOut)
  | other (n : Nat)
deriving Repr

/-- `isinstance(out, (tuple, list))`. -/
def output_is_sequence : PyOut → Bool
  | .tup _ => true
  | .lst _ => true
  | _ => false

/-- The epilogue of `functional_call` and `functional_call_2`: raise
`RuntimeError` unless the body's output is a tuple or a list, else return
the output unchanged. -/
def functional_call_check (out : PyOut) : Except PyExc PyOut :=
  if output_is_sequence out then .ok out else .error .runtimeError

/-- Is `out` a flat sequence of tensors — the spec's output contract?
(This predicate follows the specification's words, for comparison with
the source's check.) -/
def isFlatSequence : PyOut → Bool
  | .tup xs => xs.all fun x => match x with | .tensor _ => true | _ => false
  | .lst xs => xs.all fun x => match x with | .tensor _ => true | _ => false
  | _ => false

/-- C4 (amended): the output check raises exactly when the body's output
is not, at top level, a tuple or a list: a bare tensor (or any other
non-sequence object) fails with the error, and every tuple or list —
including arbitrarily nested ones — passes.  The check does not inspect
the elements, so flatness of the sequence is not enforced. -/
theorem functional_call_check_iff (out : PyOut) :
    functional_call_check out = .error .runtimeError ↔
      ((∀ xs, out ≠ .tup xs) ∧ ∀ xs, out ≠ .lst xs) := by
  cases out <;> simp [functional_call_check, output_is_sequence]

/-- C4 counterexample: the claim as stated — that every body output that
is not a flat sequence fails compilation with the output-shape error — is
false.  A tuple containing a nested tuple is not a flat sequence, yet the
check accepts it silently. -/
theorem functional_call_nested_tuple_cex :
    isFlatSequence (.tup [.tup [], .tensor (Tensor.mk [1] 0 0 false [3])]) = false ∧
    functional_call_check (.tup [.tup [], .tensor (Tensor.mk [1] 0 0 false [3])]) =
      .ok (.tup [.tup [], .tensor (Tensor.mk [1] 0 0 false [3])]) := by
  constructor
  · rfl
  · rfl

/-! ### `call_without_params` (train_step.py lines 201-207)

The final callable closes over the real `params_flat` and
`named_states_flat` tensors.  Those are aliases into the module and
optimizer, so they are modelled as slots (indices) into a mutable store.
The functionalized graph `functional_fx_g` is external (produced by
`make_fx`/`functionalize`); it is abstracted as a function from the
ambient grad-mode flag and the flat input values to the declared outputs
together with the updated values its copy-back epilogue writes into the
parameter/state input slots. -/

/-- A placeholder tensor used for out-of-range slot reads. -/
def defaultTensor : Tensor := Tensor.mk [] 0 0 false []

/-- Read the tensors referenced by `slots` from the store. -/
def readSlots (store : List Tensor) (slots : List Nat) : List Tensor :=
  slots.map fun i => store.getD i defaultTensor

/-- Write `vs` into the store at `slots`, pointwise. -/
def writeSlots : List Tensor → List Nat → List Tensor → List Tensor
  | store, [], _ => store
  | store, _ :: _, [] => store
  | store, i :: is, v :: vs => writeSlots (store.set i v) is vs

/-- Modelled from the spec: the functionalized graph's epilogue copies the
updated parameter/state values back into the original slots (the
`copy_` ops appended by functionalization; `make_fx`/`functionalize` are
not under `src/`).  Running the graph reads the slot values, applies the
graph function under the ambient grad flag, and writes the epilogue
values back into the slots. -/
def runFunctionalGraph (g : Bool → List Tensor → List Tensor × List Tensor)
    (gradEnabled : Bool) (slots : List Nat) (store : List Tensor)
    (extraArgs : List Tensor) : List Tensor × List Tensor :=
  let r := g gradEnabled (readSlots store slots ++ extraArgs)
  (r.1, writeSlots store slots r.2)

/-- `with torch.no_grad(): body` — run the body with the global grad flag
cleared and restore the ambient flag afterwards.  Returns the body's
value, the final store, and the restored flag. -/
def withNoGrad {σ α : Type} (outer : Bool) (body : Bool → σ → α × σ) (s : σ) :
    α × σ × Bool :=
  let r := body false s
  (r.1, r.2, outer)

/-- `call_without_params`: takes only the original runtime arguments and,
inside `torch.no_grad()`, invokes the functionalized graph on the
closed-over parameter and state sequences prepended to those arguments. -/
def call_without_params (g : Bool → List Tensor → List Tensor × List Tensor)
    (paramSlots stateSlots : List Nat) (outerGrad : Bool) (store : List Tensor)
    (runtimeArgs : List Tensor) : List Tensor × List Tensor × Bool :=
  withNoGrad outerGrad
    (fun gr st => runFunctionalGraph g gr (paramSlots ++ stateSlots) st runtimeArgs)
    store

/-- C6: the final callable takes only the runtime arguments; it invokes
the functionalized graph with the closed-over parameter and state
sequences prepended to them (so the graph sees exactly
`|params| + |states| + |args|` inputs), it runs the graph with the grad
flag cleared while the ambient flag is restored on return, and each call
writes the epilogue's updated values back into the closed-over
parameter/state slots, advancing them in place. -/
theorem call_without_params_spec (g : Bool → List Tensor → List Tensor × List Tensor)
    (paramSlots stateSlots : List Nat) (outerGrad : Bool) (store : List Tensor)
    (args : List Tensor) :
    (call_without_params g paramSlots stateSlots outerGrad store args).1 =
      (g false (readSlots store (paramSlots ++ stateSlots) ++ args)).1 ∧
    (call_without_params g paramSlots stateSlots outerGrad store args).2.1 =
      writeSlots store (paramSlots ++ stateSlots)
        (g false (readSlots store (paramSlots ++ stateSlots) ++ args)).2 ∧
    (call_without_params g paramSlots stateSlots outerGrad store args).2.2 = outerGrad ∧
    (readSlots store (paramSlots ++ stateSlots) ++ args).length =
      paramSlots.length + stateSlots.length + args.length := by
  refine ⟨rfl, rfl, rfl, ?_⟩
  simp [readSlots]
  omega

/-! ### Structure flattener (`torch.utils._pytree`)

`tree_flatten`/`tree_unflatten` are imported from `torch.utils._pytree`,
which is not under `src/`; the definitions below are modelled from the
spec's contract for the Structure Flattener.  Nested mappings are
string-keyed trees with tensor leaves; flattening returns the leaves in
insertion order plus a reconstruction descriptor; unflattening consumes
the sequence against the descriptor and fails (`StructureMismatch`) if
the lengths disagree. -/

mutual
/-- Modelled from the spec: a nested parameter/state mapping — either a
single leaf value or an insertion-ordered mapping from names to nested
mappings. -/
inductive NTree where
  | leaf : Tensor → NTree
  | node : NForest → NTree
deriving Repr
/-- The ordered entries of a nested mapping. -/
inductive NForest where
  | nil : NForest
  | cons : String → NTree → NForest → NForest
deriving Repr
end

mutual
/-- Modelled from the spec: the reconstruction descriptor recording the
nesting and keys of a flattened structure. -/
inductive TreeSpec where
  | leaf : TreeSpec
  | node : ForestSpec → TreeSpec
deriving Repr
/-- Descriptor entries for a mapping's children. -/
inductive ForestSpec where
  | nil : ForestSpec
  | cons : String → TreeSpec → ForestSpec → ForestSpec
deriving Repr
end

mutual
/-- The leaves of a nested mapping, in insertion order. -/
def treeLeaves : NTree → List Tensor
  | .leaf t => [t]
  | .node f => forestLeaves f
/-- The leaves of a mapping's entries, in insertion order. -/
def forestLeaves : NForest → List Tensor
  | .nil => []
  | .cons _ t rest => treeLeaves t ++ forestLeaves rest
end

mutual
/-- The reconstruction descriptor of a nested mapping. -/
def treeSpecOf : NTree → TreeSpec
  | .leaf _ => .leaf
  | .node f => .node (forestSpecOf f)
/-- The descriptors of a mapping's entries. -/
def forestSpecOf : NForest → ForestSpec
  | .nil => .nil
  | .cons k t rest => .cons k (treeSpecOf t) (forestSpecOf rest)
end

mutual
/-- Modelled from the spec: rebuild a nested mapping from a descriptor,
consuming values from the sequence and returning the leftover suffix;
`none` is the `StructureMismatch` failure (sequence too short). -/
def treeUnflatten : TreeSpec → List Tensor → Option (NTree × List Tensor)
  | .leaf, [] => none
  | .leaf, t :: rest => some (.leaf t, rest)
  | .node fs, xs =>
    match forestUnflatten fs xs with
    | some (f, rest) => some (.node f, rest)
    | none => none
/-- Rebuild a mapping's entries from their descriptors. -/
def forestUnflatten : ForestSpec → List Tensor → Option (NForest × List Tensor)
  | .nil, xs => some (.nil, xs)
  | .cons k ts fs, xs =>
    match treeUnflatten ts xs with
    | some (t, rest) =>
      match forestUnflatten fs rest with
      | some (f, rest2) => some (.cons k t f, rest2)
      | none => none
    | none => none
end

/-- `pytree.tree_flatten`: the ordered leaf sequence and the descriptor. -/
def tree_flatten (x : NTree) : List Tensor × TreeSpec := (treeLeaves x, treeSpecOf x)

/-- `pytree.tree_unflatten`: rebuild from a flat sequence and a
descriptor; `none` is the `StructureMismatch` failure (the sequence's
length disagrees with the descriptor: too short, or leftover values). -/
def tree_unflatten (values : List Tensor) (spec : TreeSpec) : Option NTree :=
  match treeUnflatten spec values with
  | some (t, []) => some t
  | _ => none

mutual
theorem treeUnflatten_leaves (x : NTree) (rest : List Tensor) :
    treeUnflatten (treeSpecOf x) (treeLeaves x ++ rest) = some (x, rest) := by
  cases x with
  | leaf t => simp [treeSpecOf, treeLeaves, treeUnflatten]
  | node f => simp [treeSpecOf, treeLeaves, treeUnflatten, forestUnflatten_leaves f rest]
theorem forestUnflatten_leaves (f : NForest) (rest : List Tensor) :
    forestUnflatten (forestSpecOf f) (forestLeaves f ++ rest) = some (f, rest) := by
  cases f with
  | nil => simp [forestSpecOf, forestLeaves, forestUnflatten]
  | cons k t fs =>
    simp [forestSpecOf, forestLeaves, forestUnflatten, List.append_assoc,
      treeUnflatten_leaves t (forestLeaves fs ++ rest), forestUnflatten_leaves fs rest]
end

/-- C9: flatten/unflatten round trip — for every nested parameter or
state mapping, unflattening the flattened sequence with the descriptor
produced alongside it yields the original structure, keys, order and
leaf values included. -/
theorem tree_unflatten_tree_flatten (x : NTree) :
    tree_unflatten (tree_flatten x).1 (tree_flatten x).2 = some x := by
  have h := treeUnflatten_leaves x []
  rw [List.append_nil] at h
  simp [tree_unflatten, tree_flatten, h]

/-! ### `DTensorFallbackMode.expand` (parallel_mode.py lines 49-97)

Flattened pytree leaves are either tensors — carrying their Python object
id (the key of the `_placements_override` registry) and their number of
dimensions — or non-tensor values.  A `Schema` pairs the device mesh
(modelled by the world size that builds it, line 59) with a placement
list. -/

/-- A tensor leaf seen by the fallback expansion: its Python object id
and its dimensionality. -/
structure PTensor where
  oid : Nat
  ndim : Nat
deriving DecidableEq, Repr

/-- A flattened pytree leaf: a tensor or some other (non-tensor) value. -/
inductive PLeaf where
  | tensor (t : PTensor)
  | other (v : Nat)
deriving DecidableEq, Repr

/-- Is the leaf a tensor (`isinstance(p, torch.Tensor)`)? -/
def isTensorLeaf : PLeaf → Bool
  | .tensor _ => true
  | .other _ => false

/-- A DTensor placement: `Replicate()` or `Shard(dim)`. -/
inductive Placement where
  | replicate
  | shard (dim : Nat)
deriving DecidableEq, Repr

/-- `Schema(mesh=..., placements=...)`; the mesh is the one built from the
world size on line 59. -/
structure Schema where
  meshSize : Nat
  placements : List Placement
deriving DecidableEq, Repr

/-- `shard_schema`: shard on dimension 0. -/
def shardSchema (ws : Nat) : Schema := Schema.mk ws [Placement.shard 0]

/-- `replicate_schema`: replicate on every device. -/
def replicateSchema (ws : Nat) : Schema := Schema.mk ws [Placement.replicate]

/-- `torch.empty(0)`: the dummy stand-in appended for non-tensor inputs
(a fresh one-dimensional tensor). -/
def emptyTensorLeaf : PLeaf := PLeaf.tensor (PTensor.mk 0 1)

/-- The loop over `pytree.tree_flatten(params_and_buffers)[0]` (lines
66-69): assert each leaf is a tensor, append it with a replicate
schema. -/
def dtensorExpandParams (ws : Nat) : List PLeaf → Except PyExc (List PLeaf × List Schema)
  | [] => .ok ([], [])
  | .tensor t :: rest =>
    match dtensorExpandParams ws rest with
    | .ok (is, ss) => .ok (.tensor t :: is, replicateSchema ws :: ss)
    | .error e => .error e
  | .other _ :: _ => .error .assertionError

/-- The loop over `pytree.tree_flatten(named_states)[0]` (lines 71-77):
tensors are appended as-is, non-tensors as `torch.empty(0)`, each with a
replicate schema. -/
def dtensorExpandStates (ws : Nat) : List PLeaf → List PLeaf × List Schema
  | [] => ([], [])
  | o :: rest =>
    let r := dtensorExpandStates ws rest
    match o with
    | .tensor t => (.tensor t :: r.1, replicateSchema ws :: r.2)
    | .other _ => (emptyTensorLeaf :: r.1, replicateSchema ws :: r.2)

/-- The loop over `flat_args` (lines 79-95): a tensor argument gets its
registered override placement if `id(a)` is in `_placements_override`,
else the shard-on-dim-0 schema; a non-tensor argument is replaced by
`torch.empty(0)` with a shard schema. -/
def dtensorExpandArgs (ov : List (Nat × List Placement)) (ws : Nat) :
    List PLeaf → List PLeaf × List Schema
  | [] => ([], [])
  | a :: rest =>
    let r := dtensorExpandArgs ov ws rest
    match a with
    | .tensor t =>
      match dget? ov t.oid with
      | some pl => (.tensor t :: r.1, Schema.mk ws pl :: r.2)
      | none => (.tensor t :: r.1, shardSchema ws :: r.2)
    | .other _ => (emptyTensorLeaf :: r.1, shardSchema ws :: r.2)

/-- The value sequence built by `expand()` before the converter call: the
three loops appended in order. -/
def dtensorBuild (ov : List (Nat × List Placement)) (ws : Nat)
    (params ns args : List PLeaf) : Except PyExc (List PLeaf × List Schema) :=
  match dtensorExpandParams ws params with
  | .error e => .error e
  | .ok (pis, pss) =>
    let s := dtensorExpandStates ws ns
    let a := dtensorExpandArgs ov ws args
    .ok (pis ++ s.1 ++ a.1, pss ++ s.2 ++ a.2)

/-- Modelled from the spec: `_convert_to_distributed`
(`torch.distributed._spmd.distribute`, not under `src/`) converts each
value under its schema; given `_allow_partial=False`, any value it cannot
place under its schema is a hard failure, while with partial conversion
allowed the unplaceable values would be dropped best-effort.  The
converter's per-value feasibility is abstracted as the `canPlace`
oracle. -/
def convert_to_distributed (canPlace : PLeaf → Schema → Bool) (inps : List PLeaf)
    (schemas : List Schema) (allowPartial : Bool) :
    Except PyExc (List (PLeaf × Schema)) :=
  let pairs := inps.zip schemas
  if pairs.all fun p => canPlace p.1 p.2 then .ok pairs
  else if allowPartial then .ok (pairs.filter fun p => canPlace p.1 p.2)
  else .error .placementConversionFailure

/-- `DTensorFallbackMode.expand`: build the value and schema sequences and
invoke the converter with `_allow_partial=False` (line 97). -/
def dtensorFallbackExpand (canPlace : PLeaf → Schema → Bool)
    (ov : List (Nat × List Placement)) (ws : Nat) (params ns args : List PLeaf) :
    Except PyExc (List (PLeaf × Schema)) :=
  match dtensorBuild ov ws params ns args with
  | .error e => .error e
  | .ok (inps, schemas) => convert_to_distributed canPlace inps schemas false

/-- Tensor state/argument leaves pass through; non-tensor leaves are
replaced by the `torch.empty(0)` dummy. -/
def leafOrDummy : PLeaf → PLeaf
  | .tensor t => .tensor t
  | .other _ => emptyTensorLeaf

/-- The schema assigned to a runtime argument: the registered override
when the tensor's id is in the registry, else shard-on-dim-0. -/
def argSchema (ov : List (Nat × List Placement)) (ws : Nat) : PLeaf → Schema
  | .tensor t =>
    match dget? ov t.oid with
    | some pl => Schema.mk ws pl
    | none => shardSchema ws
  | .other _ => shardSchema ws

theorem dtensorExpandParams_ok (ws : Nat) (params : List PLeaf)
    (h : params.all isTensorLeaf = true) :
    dtensorExpandParams ws params =
      .ok (params, params.map fun _ => replicateSchema ws) := by
  induction params with
  | nil => rfl
  | cons hd rest ih =>
    simp only [List.all_cons, Bool.and_eq_true] at h
    cases hd with
    | tensor t => simp [dtensorExpandParams, ih h.2]
    | other v => simp [isTensorLeaf] at h

theorem dtensorExpandStates_eq (ws : Nat) (ns : List PLeaf) :
    dtensorExpandStates ws ns = (ns.map leafOrDummy, ns.map fun _ => replicateSchema ws) := by
  induction ns with
  | nil => rfl
  | cons hd rest ih => cases hd <;> simp [dtensorExpandStates, leafOrDummy, ih]

theorem dtensorExpandArgs_eq (ov : List (Nat × List Placement)) (ws : Nat)
    (args : List PLeaf) :
    dtensorExpandArgs ov ws args = (args.map leafOrDummy, args.map (argSchema ov ws)) := by
  induction args with
  | nil => rfl
  | cons hd rest ih =>
    cases hd with
    | tensor t =>
      cases hov : dget? ov t.oid <;>
        simp [dtensorExpandArgs, leafOrDummy, argSchema, hov, ih]
    | other v => simp [dtensorExpandArgs, leafOrDummy, argSchema, ih]

theorem get?_map_const {α β : Type} (l : List α) (c : β) (i : Nat) (h : i < l.length) :
    (l.map fun _ => c).get? i = some c := by
  rw [List.get?_map, List.get?_eq_get h]
  rfl

/-- C5: for an input with `P` parameter/buffer leaves, `S` named-state
leaves and `A` runtime-argument leaves (parameters all tensors, as the
loop asserts), the value and schema sequences handed to the distributed
converter each have exactly `P + S + A` entries, position-for-position;
every parameter/buffer and state position carries a Replicate schema,
every tensor argument whose id is registered in the override registry
carries its overridden placement, every unregistered tensor argument
carries shard-on-dim-0, and tensor arguments appear themselves at their
positions of the value sequence. -/
theorem dtensorBuild_placement_invariant (ov : List (Nat × List Placement)) (ws : Nat)
    (params ns args : List PLeaf) (hp : params.all isTensorLeaf = true) :
    dtensorBuild ov ws params ns args =
      .ok (params ++ ns.map leafOrDummy ++ args.map leafOrDummy,
        (params.map fun _ => replicateSchema ws) ++ (ns.map fun _ => replicateSchema ws) ++
          args.map (argSchema ov ws)) ∧
    ∀ inps schemas, dtensorBuild ov ws params ns args = .ok (inps, schemas) →
      inps.length = params.length + ns.length + args.length ∧
      schemas.length = params.length + ns.length + args.length ∧
      (∀ i, i < params.length + ns.length → schemas.get? i = some (replicateSchema ws)) ∧
      (∀ j t pl, args.get? j = some (.tensor t) → dget? ov t.oid = some pl →
        schemas.get? (params.length + ns.length + j) = some (Schema.mk ws pl)) ∧
      (∀ j t, args.get? j = some (.tensor t) → dget? ov t.oid = none →
        schemas.get? (params.length + ns.length + j) = some (shardSchema ws)) ∧
      (∀ j t, args.get? j = some (.tensor t) →
        inps.get? (params.length + ns.length + j) = some (.tensor t)) := by
  have hbuild : dtensorBuild ov ws params ns args =
      .ok (params ++ ns.map leafOrDummy ++ args.map leafOrDummy,
        (params.map fun _ => replicateSchema ws) ++ (ns.map fun _ => replicateSchema ws) ++
          args.map (argSchema ov ws)) := by
    rw [dtensorBuild, dtensorExpandParams_ok ws params hp, dtensorExpandStates_eq,
      dtensorExpandArgs_eq]
  refine ⟨hbuild, ?_⟩
  intro inps schemas h
  rw [hbuild] at h
  obtain ⟨hi, hs⟩ : _ ∧ _ := by
    have := Except.ok.inj h
    exact ⟨congrArg Prod.fst this, congrArg Prod.snd this⟩
  subst hi
  subst hs
  have hlenRepl : ((params.map fun _ => replicateSchema ws) ++
      (ns.map fun _ => replicateSchema ws)).length = params.length + ns.length := by
    simp
  refine ⟨by simp only [List.length_append, List.length_map],
    by simp only [List.length_append, List.length_map], ?_, ?_, ?_, ?_⟩
  · intro i hilt
    rw [List.append_assoc, List.get?_append (by simpa using hilt)]
    rcases Nat.lt_or_ge i params.length with hlt | hge
    · rw [List.get?_append (by simpa using hlt)]
      exact get?_map_const params (replicateSchema ws) i hlt
    · rw [List.get?_append_right (by simpa using hge)]
      refine get?_map_const ns (replicateSchema ws) _ ?_
      simp only [List.length_map]
      omega
  · intro j t pl hj hov
    rw [List.get?_append_right (by rw [hlenRepl]; omega)]
    rw [hlenRepl, Nat.add_sub_cancel_left, List.get?_map, hj]
    simp [argSchema, hov]
  · intro j t hj hov
    rw [List.get?_append_right (by rw [hlenRepl]; omega)]
    rw [hlenRepl, Nat.add_sub_cancel_left, List.get?_map, hj]
    simp [argSchema, hov]
  · intro j t hj
    have hlenV : (params ++ ns.map leafOrDummy).length = params.length + ns.length := by
      simp
    rw [List.get?_append_right (by rw [hlenV]; omega)]
    rw [hlenV, Nat.add_sub_cancel_left, List.get?_map, hj]
    rfl

/-- Concrete override registry for the C5 witness: tensor id 10 is
registered with a `Shard(1)` placement. -/
def ovC5 : List (Nat × List Placement) := [(10, [Placement.shard 1])]

/-- Concrete parameter leaves for the C5 witness. -/
def paramsC5 : List PLeaf := [PLeaf.tensor (PTensor.mk 1 2)]

/-- Concrete named-state leaves for the C5 witness (one non-tensor). -/
def nsC5 : List PLeaf := [PLeaf.other 0]

/-- Concrete runtime-argument leaves for the C5 witness: one overridden
tensor, one unregistered tensor, one non-tensor. -/
def argsC5 : List PLeaf :=
  [PLeaf.tensor (PTensor.mk 10 2), PLeaf.tensor (PTensor.mk 11 1), PLeaf.other 5]

/-- Witness for `dtensorBuild_placement_invariant` at the concrete input
above. -/
theorem dtensorBuild_placement_invariant_w :
    paramsC5.all isTensorLeaf = true ∧
    (dtensorBuild ovC5 4 paramsC5 nsC5 argsC5 =
      .ok (paramsC5 ++ nsC5.map leafOrDummy ++ argsC5.map leafOrDummy,
        (paramsC5.map fun _ => replicateSchema 4) ++ (nsC5.map fun _ => replicateSchema 4) ++
          argsC5.map (argSchema ovC5 4)) ∧
    ∀ inps schemas, dtensorBuild ovC5 4 paramsC5 nsC5 argsC5 = .ok (inps, schemas) →
      inps.length = paramsC5.length + nsC5.length + argsC5.length ∧
      schemas.length = paramsC5.length + nsC5.length + argsC5.length ∧
      (∀ i, i < paramsC5.length + nsC5.length →
        schemas.get? i = some (replicateSchema 4)) ∧
      (∀ j t pl, argsC5.get? j = some (.tensor t) → dget? ovC5 t.oid = some pl →
        schemas.get? (paramsC5.length + nsC5.length + j) = some (Schema.mk 4 pl)) ∧
      (∀ j t, argsC5.get? j = some (.tensor t) → dget? ovC5 t.oid = none →
        schemas.get? (paramsC5.length + nsC5.length + j) = some (shardSchema 4)) ∧
      (∀ j t, argsC5.get? j = some (.tensor t) →
        inps.get? (paramsC5.length + nsC5.length + j) = some (.tensor t))) :=
  ⟨by decide, dtensorBuild_placement_invariant ovC5 4 paramsC5 nsC5 argsC5 (by decide)⟩

/-- C7: the fallback strategy calls the distributed converter with partial
conversion disallowed, so whenever some value of the built sequence
cannot be placed under its schema, `expand` fails hard with the placement
conversion failure — it never returns a partial or approximated result. -/
theorem dtensorFallbackExpand_hard_failure (canPlace : PLeaf → Schema → Bool)
    (ov : List (Nat × List Placement)) (ws : Nat) (params ns args : List PLeaf)
    (inps : List PLeaf) (schemas : List Schema)
    (hbuild : dtensorBuild ov ws params ns args = .ok (inps, schemas))
    (hbad : ((inps.zip schemas).all fun p => canPlace p.1 p.2) = false) :
    dtensorFallbackExpand canPlace ov ws params ns args =
      .error .placementConversionFailure := by
  simp only [dtensorFallbackExpand, hbuild, convert_to_distributed, hbad,
    Bool.false_eq_true, if_false]

/-- Converter-feasibility oracle for the C7 witness: a `Shard(d)`
placement needs a tensor with more than `d` dimensions. -/
def canPlaceC7 : PLeaf → Schema → Bool := fun l s =>
  s.placements.all fun pl =>
    match pl, l with
    | Placement.shard d, PLeaf.tensor t => decide (d < t.ndim)
    | _, _ => true

/-- Witness for `dtensorFallbackExpand_hard_failure`: sharding a
0-dimensional runtime argument on dimension 0 is infeasible, and expand
fails hard. -/
theorem dtensorFallbackExpand_hard_failure_w :
    dtensorBuild [] 2 [] [] [PLeaf.tensor (PTensor.mk 7 0)] =
      .ok ([PLeaf.tensor (PTensor.mk 7 0)], [shardSchema 2]) ∧
    ((([PLeaf.tensor (PTensor.mk 7 0)].zip [shardSchema 2]).all
      fun p => canPlaceC7 p.1 p.2) = false) ∧
    dtensorFallbackExpand canPlaceC7 [] 2 [] [] [PLeaf.tensor (PTensor.mk 7 0)] =
      .error .placementConversionFailure :=
  ⟨by decide, by decide,
    dtensorFallbackExpand_hard_failure canPlaceC7 [] 2 [] [] [PLeaf.tensor (PTensor.mk 7 0)]
      [PLeaf.tensor (PTensor.mk 7 0)] [shardSchema 2] (by decide) (by decide)⟩

/-! ### `ParallelMode` interface (parallel_mode.py lines 13-46, 99-101)

The abstract interface is a record of its three operations.  The base
class's bodies all raise `NotImplementedError`; `DTensorFallbackMode`
overrides `expand` with the fallback expansion and `optimize` with a body
that still raises, and inherits `configure_optimization_passes`. -/

structure ParallelModeS where
  expand : List PLeaf → List PLeaf → List PLeaf → Except PyExc (List (PLeaf × Schema))
  optimize : List (PLeaf × Schema) → Except PyExc (List (PLeaf × Schema))
  configure_optimization_passes : List Nat → Except PyExc Unit

/-- The `ParallelMode` base class: every operation's body raises
`NotImplementedError`. -/
def parallelModeBase : ParallelModeS where
  expand := fun _ _ _ => .error .notImplementedError
  optimize := fun _ => .error .notImplementedError
  configure_optimization_passes := fun _ => .error .notImplementedError

/-- `DTensorFallbackMode`: `expand` is the fallback expansion over the
instance's `_placements_override` registry; `optimize` is overridden but
raises `NotImplementedError`; `configure_optimization_passes` is
inherited from the base class. -/
def dtensorFallbackMode (canPlace : PLeaf → Schema → Bool)
    (ov : List (Nat × List Placement)) (ws : Nat) : ParallelModeS where
  expand := dtensorFallbackExpand canPlace ov ws
  optimize := fun _ => .error .notImplementedError
  configure_optimization_passes := parallelModeBase.configure_optimization_passes

/-- C8: in the parallel-mode interface the base `optimize` and
`configure_optimization_passes` default to raising `NotImplementedError`;
on the fallback strategy both still raise `NotImplementedError`, while
its `expand` is implemented (on the empty input it returns an empty
distributed graph rather than raising). -/
theorem parallel_mode_unimplemented_defaults :
    (∀ g, parallelModeBase.optimize g = .error .notImplementedError) ∧
    (∀ ps, parallelModeBase.configure_optimization_passes ps =
      .error .notImplementedError) ∧
    (∀ canPlace ov ws g, (dtensorFallbackMode canPlace ov ws).optimize g =
      .error .notImplementedError) ∧
    (∀ canPlace ov ws ps,
      (dtensorFallbackMode canPlace ov ws).configure_optimization_passes ps =
        .error .notImplementedError) ∧
    ∀ canPlace ov ws, (dtensorFallbackMode canPlace ov ws).expand [] [] [] = .ok [] :=
  ⟨fun _ => rfl, fun _ => rfl, fun _ _ _ _ => rfl, fun _ _ _ _ => rfl,
    fun _ _ _ => rfl⟩
